import Mathlib

/-!
Verification of the request-cache / retry / session-isolation core of the
`conduit` repository (a Phabricator Conduit MCP server), as described by its
specification.

The Python sources embedded here are
  * `conduit/client/unified.py` — `ClientConfig`, `RequestCache`
    (`_canonicalize`, `_generate_key`, `get`, `set`), the `retry_request` and
    `cached_request` decorators and `EnhancedPhabricatorClient.request`;
  * `src/conduit.py` — `PhabricatorConfig.__init__` and
    `ConduitApp.get_client`;
  * `src/client/base.py` — `BasePhabricatorClient._make_request` and
    `PhabricatorAPIError`.

Modelling conventions:
  * Python strings are modelled as `List Char` (sequences of Unicode code
    points), called `PyStr`; Python's string order is code-point
    lexicographic, modelled by `strLeB`.
  * JSON-serialisable Python values are modelled by the inductive `PyVal`
    (`None`, `bool`, `int`, `str`, `list`, `dict`).  Python `dict`s are
    association lists with (in the states of interest) no duplicate keys.
  * Wall-clock time is modelled by natural numbers (`time.time()` samples are
    passed in explicitly).
  * `hashlib.md5(key_data).hexdigest()` in `RequestCache._generate_key` is a
    fixed function of the joined `key_data` string; `generateKey` below
    returns that pre-digest string itself.  Equality of two derived keys in
    the source follows from equality of these strings, and distinctness
    transfers up to MD5 collisions, which the specification explicitly sets
    aside (the digest is used "purely for key compaction, not security").
-/

set_option maxHeartbeats 1000000

/-- A Python string: a sequence of Unicode code points. -/
abbrev PyStr := List Char

/-- Convenience injection of a Lean string literal into `PyStr`. -/
def pstr (s : String) : PyStr := s.data

/-- Lowercase hexadecimal digit, as used by CPython's `json` `\uXXXX` escapes. -/
def hexDigit (n : Nat) : Char :=
  if n < 10 then Char.ofNat (48 + n) else Char.ofNat (87 + n)

/-- Four lowercase hex digits of `n % 65536`. -/
def hex4 (n : Nat) : PyStr :=
  [hexDigit (n / 4096 % 16), hexDigit (n / 256 % 16), hexDigit (n / 16 % 16),
    hexDigit (n % 16)]

/-- JSON escape of a single character, following CPython `json.dumps` with its
default `ensure_ascii=True`: printable ASCII other than `"` and `\` is kept,
the standard short escapes are used for the usual control characters, every
other code point becomes `\uXXXX` (a surrogate pair beyond the BMP). -/
def jsonEscChar (c : Char) : PyStr :=
  if c = '"' then ['\\', '"']
  else if c = '\\' then ['\\', '\\']
  else if c = '\n' then ['\\', 'n']
  else if c = '\r' then ['\\', 'r']
  else if c = '\t' then ['\\', 't']
  else if c.toNat = 8 then ['\\', 'b']
  else if c.toNat = 12 then ['\\', 'f']
  else if 32 ≤ c.toNat ∧ c.toNat ≤ 126 then [c]
  else if c.toNat < 65536 then '\\' :: 'u' :: hex4 c.toNat
  else
    ('\\' :: 'u' :: hex4 (55296 + (c.toNat - 65536) / 1024)) ++
      ('\\' :: 'u' :: hex4 (56320 + (c.toNat - 65536) % 1024))

/-- JSON rendering of a Python string: `"` + escaped body + `"`. -/
def jsonQuote (s : PyStr) : PyStr :=
  '"' :: (s.map jsonEscChar).flatten ++ ['"']

/-- JSON-serialisable Python values, the domain of `RequestCache._canonicalize`
and of the cached response payloads. -/
inductive PyVal where
  | pynone
  | pybool (b : Bool)
  | pyint (n : Int)
  | pystr (s : PyStr)
  | pylist (elems : List PyVal)
  | pydict (entries : List (PyStr × PyVal))

/-- Python's string `<=`: code-point lexicographic comparison. -/
def strLeB : PyStr → PyStr → Bool
  | [], _ => true
  | _ :: _, [] => false
  | a :: as, b :: bs =>
    if a.toNat < b.toNat then true
    else if b.toNat < a.toNat then false
    else strLeB as bs

/-- Key order used by `json.dumps(..., sort_keys=True)`: compare the (unique)
keys of the serialised entries. -/
def keyLe (a b : PyStr × PyStr) : Prop := strLeB a.1 b.1 = true

instance : DecidableRel keyLe := fun a b => decEq (strLeB a.1 b.1) true

/-- `str(int)` in Python, e.g. `-5` prints as `"-5"`. -/
def pyIntStr (n : Int) : PyStr := (toString n).data

/-- Comma-space separated concatenation, the default `json.dumps` item
separator. -/
def joinCommaSp : List PyStr → PyStr
  | [] => []
  | [x] => x
  | x :: y :: xs => x ++ ',' :: ' ' :: joinCommaSp (y :: xs)

/-- Render a JSON object from already-serialised `(key, value)` entries, with
`json.dumps`'s default `": "` key separator. -/
def renderObj (l : List (PyStr × PyStr)) : PyStr :=
  '{' :: joinCommaSp (l.map fun p => jsonQuote p.1 ++ ':' :: ' ' :: p.2) ++ ['}']

/-- Render a JSON array from already-serialised elements. -/
def renderArr (l : List PyStr) : PyStr :=
  '[' :: joinCommaSp l ++ [']']

/-- Entry sort used by `json.dumps(..., sort_keys=True)` (CPython sorts
`dict.items()`; keys of a `dict` are unique, so only keys are compared). -/
def sortPairs (l : List (PyStr × PyStr)) : List (PyStr × PyStr) :=
  List.insertionSort keyLe l

mutual

/-- `json.dumps(v, sort_keys=True, default=str)` on a `PyVal`.  Every `PyVal`
is JSON-serialisable, so the `default=str` hook and the `TypeError` fallback in
`RequestCache._canonicalize` are never exercised on this domain. -/
def dumps : PyVal → PyStr
  | .pynone => pstr "null"
  | .pybool b => if b then pstr "true" else pstr "false"
  | .pyint n => pyIntStr n
  | .pystr s => jsonQuote s
  | .pylist l => renderArr (dumpsList l)
  | .pydict l => renderObj (sortPairs (dumpsEntries l))

/-- Serialise the elements of a JSON array. -/
def dumpsList : List PyVal → List PyStr
  | [] => []
  | v :: vs => dumps v :: dumpsList vs

/-- Serialise the entries of a JSON object (keys are serialised by
`renderObj`; sorting happens afterwards, on the keys, exactly as
`sorted(dct.items())` sorts by key for unique keys). -/
def dumpsEntries : List (PyStr × PyVal) → List (PyStr × PyStr)
  | [] => []
  | (k, v) :: es => (k, dumps v) :: dumpsEntries es

end

/-- `RequestCache._canonicalize`: `None ↦ ""`; structured values are JSON
serialised with sorted keys; everything else is `str(value)` (note Python's
`str(True) = "True"`, unlike JSON `true`). -/
def canonicalize : PyVal → PyStr
  | .pynone => []
  | .pydict l => dumps (.pydict l)
  | .pylist l => dumps (.pylist l)
  | .pystr s => s
  | .pyint n => pyIntStr n
  | .pybool b => if b then pstr "True" else pstr "False"

/-- `"|".join(key_parts)`. -/
def joinBar : List PyStr → PyStr
  | [] => []
  | [x] => x
  | x :: y :: xs => x ++ '|' :: joinBar (y :: xs)

/-- Python `str.upper()`, restricted to its ASCII behaviour (the HTTP methods
and URLs in scope are ASCII). -/
def pyUpper (s : PyStr) : PyStr := s.map Char.toUpper

/-- `RequestCache._generate_key` up to the final
`hashlib.md5(key_data.encode()).hexdigest()`: the joined `key_data` string
that the source hashes.  The digest is a fixed deterministic function of this
string (see the header comment). -/
def generateKey (method url : PyStr)
    (params data jsonPayload extra : PyVal) : PyStr :=
  joinBar [pyUpper method, url, canonicalize params, canonicalize data,
    canonicalize jsonPayload, canonicalize extra]

example : canonicalize (.pydict [(pstr "a", .pyint 1), (pstr "b", .pyint 2)]) =
    pstr "\x7b\"a\": 1, \"b\": 2\x7d" := by decide

example : canonicalize (.pydict [(pstr "b", .pyint 2), (pstr "a", .pyint 1)]) =
    pstr "\x7b\"a\": 1, \"b\": 2\x7d" := by decide

/-- The configuration fields of `ClientConfig` that drive the cache and retry
behaviour (`unified.py` lines 28-57); timeouts and pool limits are transport
settings outside this model.  Delays are exact rationals (the source defaults
`1.0` and `2.0` are exactly representable). -/
structure ClientConfig where
  maxRetries : Nat
  retryDelay : ℚ
  retryBackoff : ℚ
  enableCache : Bool
  cacheTtl : Nat

/-- The `ClientConfig.__init__` defaults: `max_retries=3`, `retry_delay=1.0`,
`retry_backoff=2.0`, `enable_cache=True`, `cache_ttl=300`. -/
def defaultConfig : ClientConfig := ⟨3, 1, 2, true, 300⟩

/-- `RequestCache`: the mutable `ttl` field and the `_cache` dict mapping a
key to `(cached_data, timestamp)`.  The dict is modelled as an association
list with `dict`-style first-match lookup and in-place overwrite. -/
structure RequestCache where
  ttl : Nat
  entries : List (PyStr × PyVal × Nat)

/-- First-match association lookup (`key in self._cache` / indexing). -/
def lookupEntry : List (PyStr × PyVal × Nat) → PyStr → Option (PyVal × Nat)
  | [], _ => none
  | (k', v, t) :: es, k => if k' = k then some (v, t) else lookupEntry es k

/-- `del self._cache[key]`: remove the binding of `k`. -/
def removeKey : List (PyStr × PyVal × Nat) → PyStr → List (PyStr × PyVal × Nat)
  | [], _ => []
  | (k', v, t) :: es, k =>
    if k' = k then es else (k', v, t) :: removeKey es k

/-- `self._cache[key] = (value, time.time())`: overwrite in place, or append a
new binding. -/
def setEntry : List (PyStr × PyVal × Nat) → PyStr → PyVal → Nat →
    List (PyStr × PyVal × Nat)
  | [], k, v, t => [(k, v, t)]
  | (k', v', t') :: es, k, v, t =>
    if k' = k then (k, v, t) :: es else (k', v', t') :: setEntry es k v t

/-- `RequestCache.get` (`unified.py` lines 100-108): a fresh entry
(`now - timestamp < ttl`) is returned; an expired one is deleted on this very
lookup and `None` is returned; a missing key returns `None`.  Python returns
the single `None` object both for a miss and for a stored `None`, so the
result is a plain `PyVal` whose `pynone` stands for that `None`. -/
def RequestCache.get (c : RequestCache) (k : PyStr) (now : Nat) :
    PyVal × RequestCache :=
  match lookupEntry c.entries k with
  | some (v, ts) =>
    if now - ts < c.ttl then (v, c) else (.pynone, ⟨c.ttl, removeKey c.entries k⟩)
  | none => (.pynone, c)

/-- `RequestCache.set` (`unified.py` lines 110-112). -/
def RequestCache.set (c : RequestCache) (k : PyStr) (v : PyVal) (now : Nat) :
    RequestCache :=
  ⟨c.ttl, setEntry c.entries k v now⟩

/-- The exception classes distinguished by the retry and request layers:
the `httpx` transient triple caught by `retry_request`, and everything
else (e.g. `PhabricatorAPIError`), which no wrapper catches. -/
inductive PyExc where
  | timeoutExc (msg : PyStr)
  | networkExc (msg : PyStr)
  | httpStatusExc (msg : PyStr)
  | otherExc (msg : PyStr)

/-- Membership in the `except (httpx.TimeoutException, httpx.NetworkError,
httpx.HTTPStatusError)` tuple of `retry_request`. -/
def isTransient : PyExc → Bool
  | .timeoutExc _ => true
  | .networkExc _ => true
  | .httpStatusExc _ => true
  | .otherExc _ => false

/-- Result of one pass through the `cached_request` wrapper body: the value
returned (or exception propagated), the state of the global `_request_cache`
afterwards, and whether the wrapped function was invoked. -/
structure CachedStep where
  result : Except PyExc PyVal
  cache : RequestCache
  invoked : Bool

/-- The `cached_request` wrapper body (`unified.py` lines 173-233), for one
call.  `method`/`url` are the values resolved from the call's arguments
(`none` models Python `None`); `f` is the outcome the wrapped function
produces if it is invoked; `now` is the `time.time()` sample for this call.
Caching is bypassed (wrapped call invoked directly, cache untouched) when the
instance config disables it, when method or url cannot be determined, or when
the upper-cased method is not `GET`.  Otherwise the wrapper sets the global
cache's `ttl` to the instance `cache_ttl`, looks the key up (which lazily
evicts an expired entry), serves a non-`None` hit without invoking, and on a
miss invokes the wrapped call and stores a successful result. -/
def cachedRequest (cfg : ClientConfig) (cache : RequestCache)
    (method url : Option PyStr) (params data jsonPayload extra : PyVal)
    (f : Except PyExc PyVal) (now : Nat) : CachedStep :=
  if cfg.enableCache = false ∨ method = none ∨ url = none then
    ⟨f, cache, true⟩
  else
    let m := method.getD []
    let mUp := pyUpper m
    if mUp ≠ pstr "GET" then ⟨f, cache, true⟩
    else
      let key := generateKey mUp (url.getD []) params data jsonPayload extra
      let cache₁ : RequestCache := ⟨cfg.cacheTtl, cache.entries⟩
      match RequestCache.get cache₁ key now with
      | (.pynone, cache₂) =>
        match f with
        | .error e => ⟨.error e, cache₂, true⟩
        | .ok v => ⟨.ok v, RequestCache.set cache₂ key v now, true⟩
      | (v, cache₂) => ⟨.ok v, cache₂, false⟩

/-- Result of a `retry_request` run: the final outcome and the number of
times the wrapped function was invoked. -/
structure RetryRun where
  result : Except PyExc PyVal
  calls : Nat

/-- The `for attempt in range(max_retries + 1)` loop of `retry_request`
(`unified.py` lines 137-156), with `f i` the outcome of the `i`-th invocation
of the wrapped function.  `attempt` is the current index and `rest` the number
of later indices still available (`rest = max_retries - attempt`, so
`attempt < max_retries` iff `rest > 0`).  A transient exception with attempts
remaining sleeps and retries (the sleep and the `current_delay *=
retry_backoff` update do not affect the observable outcome modelled here); a
transient exception on the last attempt, and any non-transient exception,
propagates immediately. -/
def retryGo (f : Nat → Except PyExc PyVal) : Nat → Nat → RetryRun
  | attempt, 0 =>
    match f attempt with
    | .ok v => ⟨.ok v, attempt + 1⟩
    | .error e => ⟨.error e, attempt + 1⟩
  | attempt, r + 1 =>
    match f attempt with
    | .ok v => ⟨.ok v, attempt + 1⟩
    | .error e =>
      if isTransient e then retryGo f (attempt + 1) r
      else ⟨.error e, attempt + 1⟩

/-- `retry_request(max_retries, ...)` applied to a function whose `i`-th
invocation yields `f i`. -/
def retryRequest (maxRetries : Nat) (f : Nat → Except PyExc PyVal) : RetryRun :=
  retryGo f 0 maxRetries

/-- Result of an `EnhancedPhabricatorClient.request` call: the outcome, the
final global cache state, and the number of invocations of the innermost
(raw HTTP) call. -/
structure RequestRun where
  result : Except PyExc PyVal
  cache : RequestCache
  calls : Nat

/-- The decorator stack on `EnhancedPhabricatorClient.request`
(`unified.py` lines 306-322): `retry_request` outside, `cached_request`
inside, around the raw `http_client.request` call whose `i`-th outcome is
`raw i` at clock `times i`.  Each retry attempt re-enters the cache wrapper
with the cache state left by the previous attempt; `acc` counts raw
invocations. -/
def requestGo (cfg : ClientConfig) (method url : Option PyStr)
    (params data jsonPayload extra : PyVal)
    (raw : Nat → Except PyExc PyVal) (times : Nat → Nat) :
    Nat → RequestCache → Nat → Nat → RequestRun
  | attempt, cache, acc, 0 =>
    let step := cachedRequest cfg cache method url params data jsonPayload
      extra (raw attempt) (times attempt)
    let acc' := acc + cond step.invoked 1 0
    match step.result with
    | .ok v => ⟨.ok v, step.cache, acc'⟩
    | .error e => ⟨.error e, step.cache, acc'⟩
  | attempt, cache, acc, r + 1 =>
    let step := cachedRequest cfg cache method url params data jsonPayload
      extra (raw attempt) (times attempt)
    let acc' := acc + cond step.invoked 1 0
    match step.result with
    | .ok v => ⟨.ok v, step.cache, acc'⟩
    | .error e =>
      if isTransient e then
        requestGo cfg method url params data jsonPayload extra raw times
          (attempt + 1) step.cache acc' r
      else ⟨.error e, step.cache, acc'⟩

/-- `EnhancedPhabricatorClient.request`.  The decorators are applied with the
literal arguments written in the source at class-definition time:
`@retry_request(max_retries=3, retry_delay=1.0, retry_backoff=2.0)` and
`@cached_request(ttl=300)` — the instance's `config` participates only
through the `enable_cache` / `cache_ttl` reads inside `cached_request`'s
body (and the `ttl=300` decorator argument is shadowed by those reads
whenever the instance has a `config`, which `EnhancedPhabricatorClient`
always does). -/
def enhancedRequest (cfg : ClientConfig) (cache : RequestCache)
    (method url : Option PyStr) (params data jsonPayload extra : PyVal)
    (raw : Nat → Except PyExc PyVal) (times : Nat → Nat) : RequestRun :=
  requestGo cfg method url params data jsonPayload extra raw times 0 cache 0 3

example :
    (retryRequest 2 fun _ => .error (.timeoutExc (pstr "t"))).calls = 3 := by
  decide

/-- Python truthiness of an optional string: `None` and `""` are falsy.  Used
for `token or os.getenv(...)`, `if http_token:` and the other string tests in
`conduit.py`. -/
def truthy : Option String → Bool
  | none => false
  | some s => if s = "" then false else true

/-- Python `a or b` on optional strings: `b` when `a` is falsy. -/
def pyOr (a b : Option String) : Option String :=
  if truthy a then a else b

/-- Python `s.startswith(p)`, computed on the code-point sequences. -/
def strStarts (s p : String) : Bool := p.data.isPrefixOf s.data

/-- Python `s.endswith(p)`, computed on the code-point sequences. -/
def strEnds (s p : String) : Bool := p.data.isSuffixOf s.data

/-- Python `s.lower()`, restricted to its ASCII behaviour. -/
def strLower (s : String) : String := ⟨s.data.map Char.toLower⟩

/-- `PhabricatorConfig` after a successful `__init__` (`src/conduit.py` lines
11-33): the resolved token (possibly absent), the URL with its trailing slash
appended, the proxy and the certificate-verification toggle. -/
structure PhabConfig where
  token : Option String
  url : String
  proxy : Option String
  disableCertVerify : Bool

/-- `PhabricatorConfig.__init__`.  Arguments mirror the constructor parameter
and the environment (`os.getenv` results; `envDisableCert` has already been
given `os.getenv`'s `""` default).  The `ValueError`s are raised in source
order: missing required token, missing URL, a truthy token whose length is
not 32, a URL without an `http(s)://` scheme; finally a missing trailing `/`
is appended. -/
def mkPhabConfig (tokenArg : Option String) (requireToken : Bool)
    (envToken envUrl envProxy : Option String) (envDisableCert : String) :
    Except String PhabConfig :=
  let token := pyOr tokenArg envToken
  let url := envUrl
  if requireToken ∧ truthy token = false then
    .error "PHABRICATOR_TOKEN is required"
  else if truthy url = false then
    .error "PHABRICATOR_URL environment variable is required"
  else if truthy token ∧ (token.getD "").length ≠ 32 then
    .error "PHABRICATOR_TOKEN must be exactly 32 characters long"
  else
    let u := url.getD ""
    if ¬ (strStarts u "http://" = true ∨ strStarts u "https://" = true) then
      .error "PHABRICATOR_URL must start with http:// or https://"
    else
      let u' := if truthy url ∧ strEnds u "/" = false then u ++ "/" else u
      .ok ⟨token, u', envProxy,
        if strLower envDisableCert = "1" ∨ strLower envDisableCert = "true" ∨
          strLower envDisableCert = "yes" then true else false⟩

/-- A `PhabricatorClient` as observed by `ConduitApp.get_client`: the URL and
token it was constructed with, the forwarded options, and `instanceId`, a
construction stamp modelling Python object identity — `get_client` tags each
`PhabricatorClient(...)` construction with the fresh stamp it is given, so two
results are the same object exactly when they carry the same stamp. -/
structure PClient where
  url : String
  token : String
  proxy : Option String
  disableCertVerify : Bool
  instanceId : Nat
deriving DecidableEq

/-- The `ConduitApp` state seen by `get_client`: the config, the transport
flag, and the memoised `self._client` slot. -/
structure ConduitApp where
  config : PhabConfig
  useSse : Bool
  client : Option PClient

/-- `headers.get(name)` on the (lower-cased) HTTP headers. -/
def headerGet : List (String × String) → String → Option String
  | [], _ => none
  | (k, v) :: hs, name => if k = name then some v else headerGet hs name

/-- `ConduitApp.get_client` (`src/conduit.py` lines 53-84) for one inbound
request.  `headers` is what `get_http_headers()` returns for this request and
`freshId` the identity stamp a new `PhabricatorClient` construction would
receive.  Returns the client handed to the caller and the `ConduitApp` state
afterwards.  Source order: a memoised `self._client` is returned immediately
(before the headers are even read); otherwise a truthy header token is
length-checked and used; otherwise SSE mode fails for want of a header token;
otherwise stdio mode falls back to the configured token.  Both
token-constructing branches memoise the new client in `self._client`. -/
def getClient (app : ConduitApp) (headers : List (String × String))
    (freshId : Nat) : Except String (PClient × ConduitApp) :=
  match app.client with
  | some c => .ok (c, app)
  | none =>
    let httpToken := headerGet headers "x-phabricator-token"
    if truthy httpToken then
      if (httpToken.getD "").length ≠ 32 then
        .error "PHABRICATOR_TOKEN from HTTP header must be exactly 32 characters long"
      else
        let c : PClient := ⟨app.config.url, httpToken.getD "",
          app.config.proxy, app.config.disableCertVerify, freshId⟩
        .ok (c, ⟨app.config, app.useSse, some c⟩)
    else if app.useSse then
      .error "Must provide X-PHABRICATOR-TOKEN."
    else if truthy app.config.token = false then
      .error "PHABRICATOR_TOKEN is required for stdio mode"
    else
      let c : PClient := ⟨app.config.url, app.config.token.getD "",
        app.config.proxy, app.config.disableCertVerify, freshId⟩
      .ok (c, ⟨app.config, app.useSse, some c⟩)

/-- `dict.get(key)` on a JSON object: `None` when absent. -/
def pyGet : List (PyStr × PyVal) → PyStr → PyVal
  | [], _ => .pynone
  | (k, v) :: es, key => if k = key then v else pyGet es key

/-- Whether a key is bound at all (to distinguish a stored `None` from an
absent key in `dict.get(key, default)`). -/
def lookupHasKey : List (PyStr × PyVal) → PyStr → Bool
  | [], _ => false
  | (k, _) :: es, key => if k = key then true else lookupHasKey es key

/-- `dict.get(key, default)` on a JSON object. -/
def pyGetD (es : List (PyStr × PyVal)) (key : PyStr) (dflt : PyVal) : PyVal :=
  if lookupHasKey es key then pyGet es key else dflt

/-- Python truthiness of a `PyVal` (`if data.get("error_code"):`). -/
def pyTruthy : PyVal → Bool
  | .pynone => false
  | .pybool b => b
  | .pyint n => if n = 0 then false else true
  | .pystr s => !s.isEmpty
  | .pylist l => !l.isEmpty
  | .pydict l => !l.isEmpty

/-- `PhabricatorAPIError`'s distinguishing payload (`base.py` lines 9-18): the
structured remote error fields, kept verbatim.  The human-readable message
string (an f-string around `error_info`) carries no further information and is
not modelled. -/
structure APIError where
  errorCode : PyVal
  errorInfo : PyVal

/-- The three ways the `try` body of `_make_request` can go before the
`error_code` check: a parsed JSON object, an `httpx.HTTPError` (from the
request or `raise_for_status`), or a `json.JSONDecodeError`. -/
inductive HttpOutcome where
  | jsonOk (data : List (PyStr × PyVal))
  | httpError (msg : PyStr)
  | jsonDecodeError (msg : PyStr)

/-- `BasePhabricatorClient._make_request` (`base.py` lines 49-91) downstream
of the HTTP exchange.  A truthy `error_code` in the response raises
`PhabricatorAPIError` with `error_code` and `error_info` taken verbatim from
the payload (this raise is not caught by the `except httpx.HTTPError` /
`except json.JSONDecodeError` clauses, which convert transport and decoding
failures into `PhabricatorAPIError`s with no structured fields); otherwise the
call returns `data.get("result", {})`. -/
def makeRequest : HttpOutcome → Except APIError PyVal
  | .httpError _ => .error ⟨.pynone, .pynone⟩
  | .jsonDecodeError _ => .error ⟨.pynone, .pynone⟩
  | .jsonOk data =>
    if pyTruthy (pyGet data (pstr "error_code")) then
      .error ⟨pyGet data (pstr "error_code"), pyGet data (pstr "error_info")⟩
    else
      .ok (pyGetD data (pstr "result") (.pydict []))

/-! ## C1: client reuse across SSE requests -/

/-- SSE-mode configuration: no process-wide token (`require_token=False` with
no `PHABRICATOR_TOKEN` in the environment), a valid URL. -/
def c1Config : PhabConfig := ⟨none, "https://phab.example/", none, false⟩

/-- A valid 32-character header token. -/
def c1Token : String := "aaaaaaaaaaaaaaaaaaaaaaaaaaaaaaaa"

/-- Headers of both inbound requests: each presents the valid token. -/
def c1Headers : List (String × String) := [("x-phabricator-token", c1Token)]

/-- The `ConduitApp(config, use_sse=True)` before any request. -/
def c1App : ConduitApp := ⟨c1Config, true, none⟩

/-- The client constructed for the first request (identity stamp `0`). -/
def c1Client : PClient := ⟨"https://phab.example/", c1Token, none, false, 0⟩

/-- The app state after the first request: the client is memoised. -/
def c1App' : ConduitApp := ⟨c1Config, true, some c1Client⟩

/-- **C1.** The claim states that in Stateless (SSE) mode two requests with
valid 32-character header tokens always get two distinct client instances and
a client is never cached.  The code does the opposite: `get_client` stores
the first request's client in `self._client` and returns that same stored
instance (identity stamp `0`, not the fresh stamp `1`) for the second
request, without even reading the second request's headers. -/
theorem c1_sse_client_memoised_and_reused :
    c1Token.length = 32 ∧
    getClient c1App c1Headers 0 = .ok (c1Client, c1App') ∧
    getClient c1App' c1Headers 1 = .ok (c1Client, c1App') ∧
    c1Client.instanceId = 0 :=
  ⟨rfl, rfl, rfl, rfl⟩

/-! ## C3: retry bound -/

/-- `retry_request` against a wrapped function that fails with a transient
error on every attempt: the loop runs through all of `range(max_retries + 1)`
and re-raises the exception of the last attempt. -/
theorem retryGo_all_transient (f : Nat → Except PyExc PyVal) (es : Nat → PyExc)
    (hf : ∀ i, f i = .error (es i)) (ht : ∀ i, isTransient (es i) = true) :
    ∀ rest attempt,
      retryGo f attempt rest = ⟨.error (es (attempt + rest)), attempt + rest + 1⟩ := by
  intro rest
  induction rest with
  | zero => intro attempt; simp [retryGo, hf attempt]
  | succ r ih =>
    intro attempt
    have harith : attempt + 1 + r = attempt + (r + 1) := by omega
    simp [retryGo, hf attempt, ht attempt, ih (attempt + 1), harith]

/-- **C3.** A call that raises a transient error (httpx timeout / network /
HTTP status) on every attempt is invoked exactly `max_retries + 1` times and
the last transient exception propagates; a call whose first attempt raises a
non-transient exception is invoked exactly once and that exception
propagates unretried. -/
theorem c3_retry_bound (maxRetries : Nat) (f : Nat → Except PyExc PyVal)
    (es : Nat → PyExc) :
    ((∀ i, f i = .error (es i)) → (∀ i, isTransient (es i) = true) →
      retryRequest maxRetries f = ⟨.error (es maxRetries), maxRetries + 1⟩) ∧
    (∀ e, f 0 = .error e → isTransient e = false →
      retryRequest maxRetries f = ⟨.error e, 1⟩) := by
  constructor
  · intro hf ht
    have h := retryGo_all_transient f es hf ht maxRetries 0
    simpa [retryRequest] using h
  · intro e hf0 hnt
    cases maxRetries with
    | zero => simp [retryRequest, retryGo, hf0]
    | succ r => simp [retryRequest, retryGo, hf0, hnt]

/-- Witness for C3: with `max_retries = 2`, a permanently failing network
call is invoked `3` times and a non-transient failure only once. -/
theorem c3_retry_bound_witness :
    retryRequest 2 (fun _ => .error (.networkExc (pstr "down"))) =
      ⟨.error (.networkExc (pstr "down")), 3⟩ ∧
    retryRequest 2 (fun _ => .error (.otherExc (pstr "boom"))) =
      ⟨.error (.otherExc (pstr "boom")), 1⟩ := by
  constructor
  · exact (c3_retry_bound 2 (fun _ => .error (.networkExc (pstr "down")))
      (fun _ => .networkExc (pstr "down"))).1 (fun _ => rfl) (fun _ => rfl)
  · exact (c3_retry_bound 2 (fun _ => .error (.otherExc (pstr "boom")))
      (fun _ => .networkExc (pstr "down"))).2 (.otherExc (pstr "boom")) rfl rfl

/-! ## C5: GET-only caching -/

/-- **C5.** Any call whose upper-cased method is not `GET` bypasses the
cache entirely: the wrapped call is always invoked, its outcome is returned
as-is, and the cache (entries and `ttl` alike) is left untouched — whatever
the cache holds, including an entry stored by an earlier `GET` with
identical parameters. -/
theorem c5_non_get_bypasses_cache (cfg : ClientConfig) (cache : RequestCache)
    (m u : PyStr) (p d j x : PyVal) (f : Except PyExc PyVal) (now : Nat)
    (hm : pyUpper m ≠ pstr "GET") :
    cachedRequest cfg cache (some m) (some u) p d j x f now = ⟨f, cache, true⟩ := by
  unfold cachedRequest
  split
  · rfl
  · simp [hm]

/-- Witness for C5: a `POST` against a cache already holding the entry a
`GET` with the same URL and parameters would hit is still passed through to
the wrapped call, and the cache is unchanged. -/
theorem c5_non_get_bypasses_cache_witness :
    cachedRequest defaultConfig
      ⟨300, [(generateKey (pstr "GET") (pstr "https://phab.example/api/")
        .pynone .pynone .pynone (.pydict []), .pystr (pstr "cached"), 0)]⟩
      (some (pstr "POST")) (some (pstr "https://phab.example/api/"))
      .pynone .pynone .pynone (.pydict []) (.ok (.pystr (pstr "live"))) 1 =
      ⟨.ok (.pystr (pstr "live")),
        ⟨300, [(generateKey (pstr "GET") (pstr "https://phab.example/api/")
          .pynone .pynone .pynone (.pydict []), .pystr (pstr "cached"), 0)]⟩,
        true⟩ :=
  c5_non_get_bypasses_cache defaultConfig _ _ _ _ _ _ _ _ 1 (by decide)

/-! ## Branch lemmas for `cached_request` -/

/-- With caching disabled on the instance config, `cached_request` executes
the wrapped call directly and leaves the cache untouched. -/
theorem cachedRequest_disabled (cfg : ClientConfig) (cache : RequestCache)
    (method url : Option PyStr) (p d j x : PyVal) (f : Except PyExc PyVal)
    (now : Nat) (h : cfg.enableCache = false) :
    cachedRequest cfg cache method url p d j x f now = ⟨f, cache, true⟩ := by
  unfold cachedRequest
  rw [if_pos (Or.inl h)]

/-- When the method or the url cannot be resolved from the call's arguments,
`cached_request` executes the wrapped call directly. -/
theorem cachedRequest_missing (cfg : ClientConfig) (cache : RequestCache)
    (method url : Option PyStr) (p d j x : PyVal) (f : Except PyExc PyVal)
    (now : Nat) (h : method = none ∨ url = none) :
    cachedRequest cfg cache method url p d j x f now = ⟨f, cache, true⟩ := by
  unfold cachedRequest
  rw [if_pos (Or.inr h)]

/-- A call whose upper-cased method is not `GET` bypasses the cache. -/
theorem cachedRequest_non_get (cfg : ClientConfig) (cache : RequestCache)
    (m u : PyStr) (p d j x : PyVal) (f : Except PyExc PyVal) (now : Nat)
    (hm : pyUpper m ≠ pstr "GET") :
    cachedRequest cfg cache (some m) (some u) p d j x f now = ⟨f, cache, true⟩ := by
  unfold cachedRequest
  split
  · rfl
  · simp [hm]

/-- On the cacheable path (`GET`, caching enabled), `cached_request` reduces
to the lookup/invoke/store logic over the global cache with the instance's
`cache_ttl` installed. -/
theorem cachedRequest_get_unfold (cfg : ClientConfig) (cache : RequestCache)
    (m u : PyStr) (p d j x : PyVal) (f : Except PyExc PyVal) (now : Nat)
    (hm : pyUpper m = pstr "GET") (hen : cfg.enableCache = true) :
    cachedRequest cfg cache (some m) (some u) p d j x f now =
      (match RequestCache.get ⟨cfg.cacheTtl, cache.entries⟩
          (generateKey (pyUpper m) u p d j x) now with
        | (.pynone, cache₂) =>
          match f with
          | .error e => ⟨.error e, cache₂, true⟩
          | .ok v => ⟨.ok v,
              RequestCache.set cache₂ (generateKey (pyUpper m) u p d j x) v now,
              true⟩
        | (v, cache₂) => ⟨.ok v, cache₂, false⟩) := by
  unfold cachedRequest
  rw [if_neg (by simp [hen])]
  simp [hm]

/-- A `get` within the TTL window returns the stored value, cache intact. -/
theorem requestCacheGet_fresh (c : RequestCache) (k : PyStr) (now : Nat)
    (v : PyVal) (ts : Nat) (hl : lookupEntry c.entries k = some (v, ts))
    (h : now - ts < c.ttl) : RequestCache.get c k now = (v, c) := by
  simp [RequestCache.get, hl, h]

/-- A `get` after the TTL window deletes the entry and returns `None`. -/
theorem requestCacheGet_expired (c : RequestCache) (k : PyStr) (now : Nat)
    (v : PyVal) (ts : Nat) (hl : lookupEntry c.entries k = some (v, ts))
    (h : ¬ now - ts < c.ttl) :
    RequestCache.get c k now = (.pynone, ⟨c.ttl, removeKey c.entries k⟩) := by
  simp [RequestCache.get, hl, h]

/-- A `get` of an unbound key returns `None`, cache intact. -/
theorem requestCacheGet_miss (c : RequestCache) (k : PyStr) (now : Nat)
    (hl : lookupEntry c.entries k = none) :
    RequestCache.get c k now = (.pynone, c) := by
  simp [RequestCache.get, hl]

/-- `self._cache[key] = (value, now)` followed by a lookup of `key` finds
exactly that pair. -/
theorem lookupEntry_setEntry_self (es : List (PyStr × PyVal × Nat))
    (k : PyStr) (v : PyVal) (t : Nat) :
    lookupEntry (setEntry es k v t) k = some (v, t) := by
  induction es with
  | nil => simp [setEntry, lookupEntry]
  | cons e es ih =>
    obtain ⟨k', v', t'⟩ := e
    by_cases h : k' = k
    · simp [setEntry, lookupEntry, h]
    · simp [setEntry, lookupEntry, h, ih]

/-- A key absent from the entry list looks up to nothing. -/
theorem lookupEntry_eq_none (es : List (PyStr × PyVal × Nat)) (k : PyStr)
    (h : k ∉ es.map fun e => e.1) : lookupEntry es k = none := by
  induction es with
  | nil => rfl
  | cons e es ih =>
    obtain ⟨k', v', t'⟩ := e
    simp only [List.map_cons, List.mem_cons] at h
    push_neg at h
    have hne : ¬ k' = k := fun hh => h.1 hh.symm
    simp [lookupEntry, hne, ih h.2]

/-- After `del self._cache[key]` the key is gone (the entry lists reachable
through `RequestCache.set` never bind a key twice). -/
theorem lookupEntry_removeKey_self (es : List (PyStr × PyVal × Nat))
    (k : PyStr) (hn : (es.map fun e => e.1).Nodup) :
    lookupEntry (removeKey es k) k = none := by
  induction es with
  | nil => rfl
  | cons e es ih =>
    obtain ⟨k', v', t'⟩ := e
    simp only [List.map_cons, List.nodup_cons] at hn
    by_cases h : k' = k
    · subst h
      simp [removeKey, lookupEntry_eq_none es k' hn.1]
    · simp [removeKey, h, lookupEntry, ih hn.2]

/-! ## C9: structured remote errors -/

/-- **C9.** On a parsed JSON response, a truthy `error_code` makes
`_make_request` raise `PhabricatorAPIError` carrying the payload's
`error_code` and `error_info` verbatim; otherwise the call returns the
payload's `result` field, defaulting to the empty dict when `result` is
absent. -/
theorem c9_make_request_error_fields (data : List (PyStr × PyVal)) :
    (pyTruthy (pyGet data (pstr "error_code")) = true →
      makeRequest (.jsonOk data) =
        .error ⟨pyGet data (pstr "error_code"), pyGet data (pstr "error_info")⟩) ∧
    (pyTruthy (pyGet data (pstr "error_code")) = false →
      makeRequest (.jsonOk data) =
        .ok (pyGetD data (pstr "result") (.pydict []))) := by
  constructor
  · intro h; simp [makeRequest, h]
  · intro h; simp [makeRequest, h]

/-! ## Order lemmas for the key sort -/

/-- Characters with equal code points are equal. -/
theorem charToNat_inj {a b : Char} (h : a.toNat = b.toNat) : a = b :=
  Char.ext (UInt32.ext h)

/-- Head/tail characterisation of `strLeB` on two nonempty strings. -/
theorem strLeB_cons (a b : Char) (as bs : PyStr) :
    strLeB (a :: as) (b :: bs) = true ↔
      a.toNat < b.toNat ∨ (a.toNat = b.toNat ∧ strLeB as bs = true) := by
  simp only [strLeB]
  split_ifs with h₁ h₂
  · simp [h₁]
  · simp
    omega
  · simp [show ¬ a.toNat < b.toNat from h₁, show a.toNat = b.toNat by omega]

/-- `strLeB` is total. -/
theorem strLeB_total : ∀ a b : PyStr, strLeB a b = true ∨ strLeB b a = true
  | [], _ => Or.inl rfl
  | _ :: _, [] => Or.inr rfl
  | a :: as, b :: bs => by
    rcases Nat.lt_trichotomy a.toNat b.toNat with h | h | h
    · exact Or.inl ((strLeB_cons a b as bs).mpr (Or.inl h))
    · rcases strLeB_total as bs with hr | hr
      · exact Or.inl ((strLeB_cons a b as bs).mpr (Or.inr ⟨h, hr⟩))
      · exact Or.inr ((strLeB_cons b a bs as).mpr (Or.inr ⟨h.symm, hr⟩))
    · exact Or.inr ((strLeB_cons b a bs as).mpr (Or.inl h))

/-- `strLeB` is transitive. -/
theorem strLeB_trans : ∀ a b c : PyStr,
    strLeB a b = true → strLeB b c = true → strLeB a c = true
  | [], _, _, _, _ => rfl
  | _ :: _, [], _, h, _ => by simp [strLeB] at h
  | _ :: _, _ :: _, [], _, h => by simp [strLeB] at h
  | a :: as, b :: bs, c :: cs, h₁, h₂ => by
    rw [strLeB_cons] at h₁ h₂ ⊢
    rcases h₁ with h₁ | ⟨h₁e, h₁r⟩ <;> rcases h₂ with h₂ | ⟨h₂e, h₂r⟩
    · exact Or.inl (by omega)
    · exact Or.inl (by omega)
    · exact Or.inl (by omega)
    · exact Or.inr ⟨by omega, strLeB_trans as bs cs h₁r h₂r⟩

/-- `strLeB` is antisymmetric. -/
theorem strLeB_antisymm : ∀ a b : PyStr,
    strLeB a b = true → strLeB b a = true → a = b
  | [], [], _, _ => rfl
  | [], _ :: _, _, h => by simp [strLeB] at h
  | _ :: _, [], h, _ => by simp [strLeB] at h
  | a :: as, b :: bs, h₁, h₂ => by
    rw [strLeB_cons] at h₁ h₂
    rcases h₁ with h₁ | ⟨h₁e, h₁r⟩ <;> rcases h₂ with h₂ | ⟨h₂e, h₂r⟩
    · exact absurd h₂ (by omega)
    · exact absurd h₁ (by omega)
    · exact absurd h₂ (by omega)
    · rw [charToNat_inj h₁e, strLeB_antisymm as bs h₁r h₂r]

instance : IsTotal (PyStr × PyStr) keyLe :=
  ⟨fun a b => strLeB_total a.1 b.1⟩

instance : IsTrans (PyStr × PyStr) keyLe :=
  ⟨fun a b c h₁ h₂ => strLeB_trans a.1 b.1 c.1 h₁ h₂⟩

/-- Two key-sorted entry lists that are permutations of each other and have
no duplicate keys are equal (keys are compared by `strLeB`, values ride
along). -/
theorem pairs_eq_of_perm_sorted :
    ∀ {l₁ l₂ : List (PyStr × PyStr)}, l₁.Perm l₂ → l₁.Pairwise keyLe →
      l₂.Pairwise keyLe → (l₁.map Prod.fst).Nodup → l₁ = l₂ := by
  intro l₁
  induction l₁ with
  | nil =>
    intro l₂ hp _ _ _
    exact hp.nil_eq
  | cons a t₁ ih =>
    intro l₂ hp hs₁ hs₂ hnd
    cases l₂ with
    | nil => exact absurd hp.symm.nil_eq (by simp)
    | cons b t₂ =>
      have hab : a = b := by
        have hmem : a ∈ b :: t₂ := hp.mem_iff.mp (List.mem_cons_self a t₁)
        rcases List.mem_cons.mp hmem with h | h
        · exact h
        · have hmem' : b ∈ a :: t₁ := hp.symm.mem_iff.mp (List.mem_cons_self b t₂)
          rcases List.mem_cons.mp hmem' with h' | h'
          · exact h'.symm
          · have k₁ : keyLe a b := (List.pairwise_cons.mp hs₁).1 b h'
            have k₂ : keyLe b a := (List.pairwise_cons.mp hs₂).1 a h
            have hkey : a.1 = b.1 := strLeB_antisymm a.1 b.1 k₁ k₂
            have hin : a.1 ∈ t₁.map Prod.fst := by
              rw [hkey]
              exact List.mem_map_of_mem Prod.fst h'
            have hout : a.1 ∉ t₁.map Prod.fst := by
              have := hnd
              simp only [List.map_cons, List.nodup_cons] at this
              exact this.1
            exact absurd hin hout
      subst hab
      have ht : t₁ = t₂ := by
        apply ih hp.cons_inv (List.pairwise_cons.mp hs₁).2
          (List.pairwise_cons.mp hs₂).2
        have := hnd
        simp only [List.map_cons, List.nodup_cons] at this
        exact this.2
      rw [ht]

/-- Sorting is insensitive to the order the entries arrived in, provided the
keys are unique. -/
theorem sortPairs_eq_of_perm (l₁ l₂ : List (PyStr × PyStr)) (h : l₁.Perm l₂)
    (hn : (l₁.map Prod.fst).Nodup) : sortPairs l₁ = sortPairs l₂ := by
  apply pairs_eq_of_perm_sorted
  · exact (List.perm_insertionSort keyLe l₁).trans
      (h.trans (List.perm_insertionSort keyLe l₂).symm)
  · exact List.sorted_insertionSort keyLe l₁
  · exact List.sorted_insertionSort keyLe l₂
  · exact (((List.perm_insertionSort keyLe l₁).map Prod.fst).nodup_iff).mpr hn

/-- `dumpsEntries` is entrywise value serialisation. -/
theorem dumpsEntries_eq_map : ∀ l : List (PyStr × PyVal),
    dumpsEntries l = l.map fun p => (p.1, dumps p.2)
  | [] => rfl
  | (k, v) :: es => by rw [dumpsEntries, dumpsEntries_eq_map es]; rfl

/-- `json.dumps(..., sort_keys=True)` of a dict does not depend on the
insertion order of its (unique) keys. -/
theorem dumps_dict_perm (l₁ l₂ : List (PyStr × PyVal)) (h : l₁.Perm l₂)
    (hn : (l₁.map Prod.fst).Nodup) :
    dumps (.pydict l₁) = dumps (.pydict l₂) := by
  show renderObj (sortPairs (dumpsEntries l₁)) =
    renderObj (sortPairs (dumpsEntries l₂))
  congr 1
  rw [dumpsEntries_eq_map, dumpsEntries_eq_map]
  apply sortPairs_eq_of_perm
  · exact h.map _
  · rw [List.map_map]
    exact hn

/-! ## C6: cache key stability -/

/-- **C6.** Two calls with the same method, the same URL, the same JSON
payload, and the same parameter mappings up to the insertion order of their
(unique) keys — for the `params`, `data` and extra-options mappings alike —
derive the identical cache key: `_canonicalize` serialises every mapping
with sorted keys, so the joined `key_data` string (and hence its MD5
digest) coincides. -/
theorem c6_cache_key_stability (m u : PyStr) (j : PyVal)
    (p₁ p₂ d₁ d₂ x₁ x₂ : List (PyStr × PyVal))
    (hp : p₁.Perm p₂) (hd : d₁.Perm d₂) (hx : x₁.Perm x₂)
    (hpn : (p₁.map Prod.fst).Nodup) (hdn : (d₁.map Prod.fst).Nodup)
    (hxn : (x₁.map Prod.fst).Nodup) :
    generateKey m u (.pydict p₁) (.pydict d₁) j (.pydict x₁) =
      generateKey m u (.pydict p₂) (.pydict d₂) j (.pydict x₂) := by
  unfold generateKey
  simp only [canonicalize]
  rw [dumps_dict_perm p₁ p₂ hp hpn, dumps_dict_perm d₁ d₂ hd hdn,
    dumps_dict_perm x₁ x₂ hx hxn]

/-- Witness for C6: reordering the two entries of the `params` dict (and of
the extra-options dict) leaves the derived key unchanged. -/
theorem c6_cache_key_stability_witness :
    generateKey (pstr "GET") (pstr "https://phab.example/api/maniphest.search")
      (.pydict [(pstr "limit", .pyint 10), (pstr "order", .pystr (pstr "newest"))])
      (.pydict []) .pynone
      (.pydict [(pstr "timeout", .pyint 30)]) =
    generateKey (pstr "GET") (pstr "https://phab.example/api/maniphest.search")
      (.pydict [(pstr "order", .pystr (pstr "newest")), (pstr "limit", .pyint 10)])
      (.pydict []) .pynone
      (.pydict [(pstr "timeout", .pyint 30)]) :=
  c6_cache_key_stability (pstr "GET")
    (pstr "https://phab.example/api/maniphest.search") PyVal.pynone
    [(pstr "limit", PyVal.pyint 10), (pstr "order", PyVal.pystr (pstr "newest"))]
    [(pstr "order", PyVal.pystr (pstr "newest")), (pstr "limit", PyVal.pyint 10)]
    [] [] [(pstr "timeout", PyVal.pyint 30)] [(pstr "timeout", PyVal.pyint 30)]
    (List.Perm.swap (pstr "order", PyVal.pystr (pstr "newest"))
      (pstr "limit", PyVal.pyint 10) [])
    (List.Perm.refl []) (List.Perm.refl [(pstr "timeout", PyVal.pyint 30)])
    (by decide) (by decide) (by decide)

/-! ## C7: cache key sensitivity -/

/-- Counterexample to C7 as stated: the `"|"` separator also occurs inside
fields, so two calls that differ in *both* URL and params can derive the very
same `key_data` string `GET|u|v||||` (and hence the same MD5 key): URL
`"u|v"` with no params, against URL `"u"` with params `"v|"`. -/
theorem c7_counterexample_separator_collision :
    generateKey (pstr "GET") (pstr "u|v") .pynone .pynone .pynone .pynone =
      generateKey (pstr "GET") (pstr "u") (.pystr (pstr "v|"))
        .pynone .pynone .pynone ∧
    pstr "u|v" ≠ pstr "u" ∧
    (PyVal.pynone : PyVal) ≠ .pystr (pstr "v|") :=
  ⟨rfl, by decide, fun h => PyVal.noConfusion h⟩

/-- Characters on which JSON serialisation is the identity and which cannot
be confused with the structural characters of the derived key: printable
ASCII other than `"`, `\` and the `"|"` separator. -/
def safeChar (c : Char) : Prop :=
  32 ≤ c.toNat ∧ c.toNat ≤ 126 ∧ c ≠ '"' ∧ c ≠ '\\' ∧ c ≠ '|'

/-- A string of safe characters. -/
def safeStr (s : PyStr) : Prop := ∀ c ∈ s, safeChar c

instance (c : Char) : Decidable (safeChar c) := by
  unfold safeChar
  infer_instance

instance (s : PyStr) : Decidable (safeStr s) := by
  unfold safeStr
  infer_instance

/-- A `PyVal` that is a safe string. -/
def isSafeStrVal : PyVal → Prop
  | .pystr s => safeStr s
  | _ => False

instance (v : PyVal) : Decidable (isSafeStrVal v) :=
  match v with
  | .pynone => isFalse fun h => h
  | .pybool _ => isFalse fun h => h
  | .pyint _ => isFalse fun h => h
  | .pystr s => inferInstanceAs (Decidable (safeStr s))
  | .pylist _ => isFalse fun h => h
  | .pydict _ => isFalse fun h => h

/-- A flat parameter mapping with unique safe keys and safe string values. -/
def safeEntries (l : List (PyStr × PyVal)) : Prop :=
  (l.map Prod.fst).Nodup ∧ ∀ e ∈ l, safeStr e.1 ∧ isSafeStrVal e.2

/-- JSON escaping is the identity on safe characters. -/
theorem jsonEscChar_safe (c : Char) (h : safeChar c) : jsonEscChar c = [c] := by
  obtain ⟨h₁, h₂, h₃, h₄, _⟩ := h
  have hn : c ≠ '\n' := by intro he; subst he; exact absurd h₁ (by decide)
  have hr : c ≠ '\r' := by intro he; subst he; exact absurd h₁ (by decide)
  have htb : c ≠ '\t' := by intro he; subst he; exact absurd h₁ (by decide)
  have h8 : ¬ c.toNat = 8 := by omega
  have h12 : ¬ c.toNat = 12 := by omega
  simp [jsonEscChar, h₃, h₄, hn, hr, htb, h8, h12, h₁, h₂]

/-- JSON-quoting a safe string just wraps it in `"`. -/
theorem jsonQuote_safe : ∀ s : PyStr, safeStr s → jsonQuote s = '"' :: s ++ ['"'] := by
  have hflat : ∀ s : PyStr, safeStr s → (s.map jsonEscChar).flatten = s := by
    intro s
    induction s with
    | nil => intro _; rfl
    | cons c cs ih =>
      intro h
      have hc : safeChar c := h c (List.mem_cons_self c cs)
      have hcs : safeStr cs := fun d hd => h d (List.mem_cons_of_mem c hd)
      simp [jsonEscChar_safe c hc, ih hcs]
  intro s h
  unfold jsonQuote
  rw [hflat s h]

/-- `Char.ofNat` below the surrogate range round-trips through `toNat`. -/
theorem charToNat_ofNat {n : Nat} (h : n < 55296) : (Char.ofNat n).toNat = n := by
  have hv : n.isValidChar := Or.inl h
  rw [Char.ofNat, dif_pos hv]
  rfl

/-- `str.upper` never turns a non-separator character into `"|"`. -/
theorem pyUpper_barFree (s : PyStr) (h : '|' ∉ s) : '|' ∉ pyUpper s := by
  intro hmem
  obtain ⟨c, hc, hup⟩ := List.mem_map.mp hmem
  have hcbar : c = '|' := by
    by_cases hl : c.toNat ≥ 97 ∧ c.toNat ≤ 122
    · exfalso
      have hval : c.toUpper = Char.ofNat (c.toNat - 32) := by
        rw [Char.toUpper, if_pos hl]
      have hroundtrip : (Char.ofNat (c.toNat - 32)).toNat = c.toNat - 32 :=
        charToNat_ofNat (by omega)
      have hbar : ('|' : Char).toNat = 124 := by decide
      rw [hup] at hval
      rw [← hval, hbar] at hroundtrip
      omega
    · have hfix : c.toUpper = c := by rw [Char.toUpper, if_neg hl]
      rw [← hup, hfix]
  exact h (hcbar ▸ hc)

/-- A safe string contains no `"|"`. -/
theorem safeStr_barFree {s : PyStr} (h : safeStr s) : '|' ∉ s :=
  fun hm => (h '|' hm).2.2.2.2 rfl

/-- A safe string contains no `"`. -/
theorem safeStr_quoteFree {s : PyStr} (h : safeStr s) : '"' ∉ s :=
  fun hm => (h '"' hm).2.2.1 rfl

/-- Peeling a separator-framed prefix: if neither prefix contains the
separator, the two decompositions agree. -/
theorem sep_append_inj (sep : Char) : ∀ (a b r s : List Char), sep ∉ a →
    sep ∉ b → a ++ sep :: r = b ++ sep :: s → a = b ∧ r = s
  | [], [], _, _, _, _, h => ⟨rfl, (List.cons.inj h).2⟩
  | [], x :: b, r, s, _, hb, h => by
    exact absurd ((List.cons.inj h).1 ▸ List.mem_cons_self x b) hb
  | x :: a, [], r, s, ha, _, h => by
    exact absurd ((List.cons.inj h).1.symm ▸ List.mem_cons_self x a) ha
  | x :: a, y :: b, r, s, ha, hb, h => by
    obtain ⟨h₁, h₂⟩ := List.cons.inj h
    obtain ⟨hab, hrs⟩ := sep_append_inj sep a b r s
      (fun hm => ha (List.mem_cons_of_mem x hm))
      (fun hm => hb (List.mem_cons_of_mem y hm)) h₂
    exact ⟨by rw [h₁, hab], hrs⟩

/-- Appending the same final character is cancellable. -/
theorem concat_inj {a b : List Char} (x : Char) (h : a ++ [x] = b ++ [x]) :
    a = b := by
  have h' := congrArg List.reverse h
  simp only [List.reverse_append, List.reverse_cons, List.reverse_nil,
    List.nil_append, List.singleton_append] at h'
  have := (List.cons.inj h').2
  simpa using congrArg List.reverse this

/-- A serialised entry whose key is safe and whose value is a quoted safe
string. -/
def qSafePair (p : PyStr × PyStr) : Prop :=
  safeStr p.1 ∧ ∃ v, p.2 = '"' :: v ++ ['"'] ∧ safeStr v

/-- The per-entry rendering used by `renderObj`. -/
def entryRender (p : PyStr × PyStr) : PyStr :=
  jsonQuote p.1 ++ ':' :: ' ' :: p.2

/-- What follows the first rendered entry: nothing, or `", "` and the rest. -/
def commaTail : List PyStr → PyStr
  | [] => []
  | x :: xs => ',' :: ' ' :: joinCommaSp (x :: xs)

/-- Splitting the first element off a comma-space join. -/
theorem joinCommaSp_cons (x : PyStr) (xs : List PyStr) :
    joinCommaSp (x :: xs) = x ++ commaTail xs := by
  cases xs with
  | nil => simp [joinCommaSp, commaTail]
  | cons y ys => rfl

/-- Normal form of a rendered entry followed by arbitrary trailing text:
everything is framed by the quote positions. -/
theorem entryRender_shape (k v T : PyStr) (hk : safeStr k) :
    entryRender (k, '"' :: v ++ ['"']) ++ T =
      '"' :: (k ++ '"' :: ':' :: ' ' :: '"' :: (v ++ '"' :: T)) := by
  rw [entryRender, jsonQuote_safe k hk]
  simp

/-- Rendered entry lists with safe keys and quoted safe values are uniquely
readable: equal rendered bodies come from equal entry lists. -/
theorem renderEntries_inj : ∀ (l₁ l₂ : List (PyStr × PyStr)),
    (∀ p ∈ l₁, qSafePair p) → (∀ p ∈ l₂, qSafePair p) →
    joinCommaSp (l₁.map entryRender) = joinCommaSp (l₂.map entryRender) →
    l₁ = l₂
  | [], [], _, _, _ => rfl
  | [], (k, s) :: t, _, h₂, heq => by
    exfalso
    obtain ⟨hk, v, hv, hvs⟩ := h₂ (k, s) (List.mem_cons_self _ t)
    subst hv
    rw [List.map_nil, List.map_cons, joinCommaSp_cons,
      entryRender_shape k v _ hk] at heq
    exact List.noConfusion heq
  | (k, s) :: t, [], h₁, _, heq => by
    exfalso
    obtain ⟨hk, v, hv, hvs⟩ := h₁ (k, s) (List.mem_cons_self _ t)
    subst hv
    rw [List.map_nil, List.map_cons, joinCommaSp_cons,
      entryRender_shape k v _ hk] at heq
    exact List.noConfusion heq
  | (k₁, s₁) :: t₁, (k₂, s₂) :: t₂, h₁, h₂, heq => by
    obtain ⟨hk₁, v₁, hv₁, hvs₁⟩ := h₁ (k₁, s₁) (List.mem_cons_self _ t₁)
    obtain ⟨hk₂, v₂, hv₂, hvs₂⟩ := h₂ (k₂, s₂) (List.mem_cons_self _ t₂)
    subst hv₁
    subst hv₂
    rw [List.map_cons, List.map_cons, joinCommaSp_cons, joinCommaSp_cons,
      entryRender_shape k₁ v₁ _ hk₁, entryRender_shape k₂ v₂ _ hk₂] at heq
    replace heq := (List.cons.inj heq).2
    obtain ⟨hkeq, heq⟩ := sep_append_inj '"' k₁ k₂ _ _
      (safeStr_quoteFree hk₁) (safeStr_quoteFree hk₂) heq
    replace heq := (List.cons.inj heq).2
    replace heq := (List.cons.inj heq).2
    replace heq := (List.cons.inj heq).2
    obtain ⟨hveq, hT⟩ := sep_append_inj '"' v₁ v₂ _ _
      (safeStr_quoteFree hvs₁) (safeStr_quoteFree hvs₂) heq
    cases t₁ with
    | nil =>
      cases t₂ with
      | nil => rw [hkeq, hveq]
      | cons q₂ t₂' => simp [commaTail] at hT
    | cons q₁ t₁' =>
      cases t₂ with
      | nil => simp [commaTail] at hT
      | cons q₂ t₂' =>
        rw [List.map_cons, List.map_cons, commaTail, commaTail] at hT
        replace hT := (List.cons.inj hT).2
        replace hT := (List.cons.inj hT).2
        have htail := renderEntries_inj (q₁ :: t₁') (q₂ :: t₂')
          (fun p hp => h₁ p (List.mem_cons_of_mem _ hp))
          (fun p hp => h₂ p (List.mem_cons_of_mem _ hp))
          (by rw [List.map_cons, List.map_cons]; exact hT)
        rw [hkeq, hveq, htail]

/-- `renderObj` is injective on safely-rendered entry lists. -/
theorem renderObj_inj (l₁ l₂ : List (PyStr × PyStr))
    (h₁ : ∀ p ∈ l₁, qSafePair p) (h₂ : ∀ p ∈ l₂, qSafePair p)
    (h : renderObj l₁ = renderObj l₂) : l₁ = l₂ := by
  rw [renderObj, renderObj] at h
  replace h := (List.cons.inj h).2
  exact renderEntries_inj l₁ l₂ h₁ h₂ (concat_inj '}' h)

/-- A comma-space join of `"|"`-free strings is `"|"`-free. -/
theorem barFree_joinCommaSp : ∀ (l : List PyStr), (∀ x ∈ l, '|' ∉ x) →
    '|' ∉ joinCommaSp l
  | [], _ => by simp [joinCommaSp]
  | [x], h => by
    simpa [joinCommaSp] using h x (List.mem_cons_self x [])
  | x :: y :: xs, h => by
    rw [joinCommaSp]
    intro hm
    rcases List.mem_append.mp hm with hm | hm
    · exact h x (List.mem_cons_self x (y :: xs)) hm
    · rcases List.mem_cons.mp hm with hc | hm
      · exact absurd hc (by decide)
      rcases List.mem_cons.mp hm with hc | hm
      · exact absurd hc (by decide)
      exact barFree_joinCommaSp (y :: xs)
        (fun z hz => h z (List.mem_cons_of_mem x hz)) hm

/-- A safely-rendered entry is `"|"`-free. -/
theorem barFree_entryRender (p : PyStr × PyStr) (hp : qSafePair p) :
    '|' ∉ entryRender p := by
  obtain ⟨hk, v, hv, hvs⟩ := hp
  intro hm
  have hm' : '|' ∈ entryRender (p.1, '"' :: v ++ ['"']) ++ ([] : PyStr) := by
    rw [← hv]
    simpa using hm
  rw [entryRender_shape p.1 v [] hk] at hm'
  replace hm := hm'
  rcases List.mem_cons.mp hm with hc | hm
  · exact absurd hc (by decide)
  rcases List.mem_append.mp hm with hm | hm
  · exact safeStr_barFree hk hm
  rcases List.mem_cons.mp hm with hc | hm
  · exact absurd hc (by decide)
  rcases List.mem_cons.mp hm with hc | hm
  · exact absurd hc (by decide)
  rcases List.mem_cons.mp hm with hc | hm
  · exact absurd hc (by decide)
  rcases List.mem_cons.mp hm with hc | hm
  · exact absurd hc (by decide)
  rcases List.mem_append.mp hm with hm | hm
  · exact safeStr_barFree hvs hm
  rcases List.mem_cons.mp hm with hc | hm
  · exact absurd hc (by decide)
  exact List.not_mem_nil '|' hm

/-- The sorted serialised entries of a safe flat dict are safely rendered. -/
theorem qSafe_sorted_dumpsEntries (l : List (PyStr × PyVal))
    (hl : safeEntries l) :
    ∀ p ∈ sortPairs (dumpsEntries l), qSafePair p := by
  intro p hp
  have hp' : p ∈ dumpsEntries l :=
    (List.perm_insertionSort keyLe (dumpsEntries l)).mem_iff.mp hp
  rw [dumpsEntries_eq_map] at hp'
  obtain ⟨⟨k, v⟩, hkv, rfl⟩ := List.mem_map.mp hp'
  obtain ⟨hks, hvs⟩ := hl.2 (k, v) hkv
  cases v with
  | pystr s =>
    refine ⟨hks, s, ?_, hvs⟩
    show dumps (.pystr s) = '"' :: s ++ ['"']
    rw [show dumps (.pystr s) = jsonQuote s from rfl, jsonQuote_safe s hvs]
  | pynone => exact hvs.elim
  | pybool b => exact hvs.elim
  | pyint n => exact hvs.elim
  | pylist es => exact hvs.elim
  | pydict es => exact hvs.elim

/-- The canonicalisation of a safe flat dict is `"|"`-free. -/
theorem barFree_canon_dict (l : List (PyStr × PyVal)) (hl : safeEntries l) :
    '|' ∉ canonicalize (.pydict l) := by
  show '|' ∉ renderObj (sortPairs (dumpsEntries l))
  rw [renderObj]
  intro hm
  rcases List.mem_cons.mp hm with hc | hm
  · exact absurd hc (by decide)
  rcases List.mem_append.mp hm with hm | hm
  · refine barFree_joinCommaSp _ ?_ hm
    intro x hx
    obtain ⟨q, hq, rfl⟩ := List.mem_map.mp hx
    exact barFree_entryRender q (qSafe_sorted_dumpsEntries l hl q hq)
  · rcases List.mem_cons.mp hm with hc | hm
    · exact absurd hc (by decide)
    exact List.not_mem_nil '|' hm

/-- Un-quote a serialised safe string value. -/
def unquote (s : PyStr) : PyStr := s.dropLast.drop 1

/-- Recovering the original entries from equal sorted serialisations. -/
theorem perm_of_sorted_serialized (p₁ p₂ : List (PyStr × PyVal))
    (hp₁ : safeEntries p₁) (hp₂ : safeEntries p₂)
    (h : sortPairs (dumpsEntries p₁) = sortPairs (dumpsEntries p₂)) :
    p₁.Perm p₂ := by
  have hperm : (dumpsEntries p₁).Perm (dumpsEntries p₂) := by
    have ha : (dumpsEntries p₁).Perm (sortPairs (dumpsEntries p₁)) :=
      (List.perm_insertionSort keyLe (dumpsEntries p₁)).symm
    have hb : (sortPairs (dumpsEntries p₂)).Perm (dumpsEntries p₂) :=
      List.perm_insertionSort keyLe (dumpsEntries p₂)
    rw [h] at ha
    exact ha.trans hb
  rw [dumpsEntries_eq_map, dumpsEntries_eq_map] at hperm
  have hinv : ∀ (p : List (PyStr × PyVal)), safeEntries p →
      ((p.map fun e => (e.1, dumps e.2)).map
        fun q => (q.1, PyVal.pystr (unquote q.2))) = p := by
    intro p hp
    rw [List.map_map]
    have : ∀ e ∈ p,
        ((fun q => (q.1, PyVal.pystr (unquote q.2))) ∘
          fun e => (e.1, dumps e.2)) e = id e := by
      intro e he
      obtain ⟨hks, hvs⟩ := hp.2 e he
      cases hv : e.2 with
      | pystr s =>
        have hd : dumps (.pystr s) = '"' :: s ++ ['"'] := by
          rw [show dumps (.pystr s) = jsonQuote s from rfl]
          exact jsonQuote_safe s (by rw [hv] at hvs; exact hvs)
        have hu : unquote ('"' :: s ++ ['"']) = s := by
          rw [unquote, show '"' :: s ++ ['"'] = ('"' :: s) ++ ['"'] from by simp,
            List.dropLast_concat]
          rfl
        show (e.1, PyVal.pystr (unquote (dumps e.2))) = e
        rw [hv, hd, hu]
        exact congrArg (Prod.mk e.1) hv.symm
      | pynone => rw [hv] at hvs; exact hvs.elim
      | pybool b => rw [hv] at hvs; exact hvs.elim
      | pyint n => rw [hv] at hvs; exact hvs.elim
      | pylist es => rw [hv] at hvs; exact hvs.elim
      | pydict es => rw [hv] at hvs; exact hvs.elim
    rw [List.map_congr_left this, List.map_id]
  have := hperm.map fun q => (q.1, PyVal.pystr (unquote q.2))
  rw [hinv p₁ hp₁, hinv p₂ hp₂] at this
  exact this

/-- **C7 (amended).** On inputs whose fields cannot collide with the key's
structure — method and URL free of the `"|"` separator, parameters a flat
mapping with unique safe-ASCII keys and safe-ASCII string values — the
derived `key_data` string determines the call: equal keys force equal
upper-cased methods, equal URLs, and equal parameter mappings up to entry
order.  Contrapositively, changing the method (beyond case), the URL, or any
parameter value (including adding or removing a parameter) changes the
derived key string, and hence the MD5 key up to digest collisions.  Without
the separator-freedom proviso the claim is false (see the counterexample):
`"|".join` lets a `"|"` inside one field re-frame the neighbouring fields. -/
theorem c7_cache_key_sensitivity_amended (m₁ m₂ u₁ u₂ : PyStr)
    (p₁ p₂ : List (PyStr × PyVal))
    (hm₁ : '|' ∉ m₁) (hm₂ : '|' ∉ m₂) (hu₁ : '|' ∉ u₁) (hu₂ : '|' ∉ u₂)
    (hp₁ : safeEntries p₁) (hp₂ : safeEntries p₂)
    (h : generateKey m₁ u₁ (.pydict p₁) .pynone .pynone .pynone =
      generateKey m₂ u₂ (.pydict p₂) .pynone .pynone .pynone) :
    pyUpper m₁ = pyUpper m₂ ∧ u₁ = u₂ ∧ p₁.Perm p₂ := by
  rw [generateKey, generateKey] at h
  have hshape : ∀ (a b c : PyStr), joinBar [a, b, c, canonicalize .pynone,
      canonicalize .pynone, canonicalize .pynone] =
      a ++ '|' :: (b ++ '|' :: (c ++ '|' :: '|' :: '|' :: [])) := by
    intro a b c
    rfl
  rw [hshape, hshape] at h
  obtain ⟨hma, h⟩ := sep_append_inj '|' (pyUpper m₁) (pyUpper m₂) _ _
    (pyUpper_barFree m₁ hm₁) (pyUpper_barFree m₂ hm₂) h
  obtain ⟨hua, h⟩ := sep_append_inj '|' u₁ u₂ _ _ hu₁ hu₂ h
  obtain ⟨hca, -⟩ := sep_append_inj '|' (canonicalize (.pydict p₁))
    (canonicalize (.pydict p₂)) _ _ (barFree_canon_dict p₁ hp₁)
    (barFree_canon_dict p₂ hp₂) h
  refine ⟨hma, hua, ?_⟩
  have hsorted : sortPairs (dumpsEntries p₁) = sortPairs (dumpsEntries p₂) :=
    renderObj_inj _ _ (qSafe_sorted_dumpsEntries p₁ hp₁)
      (qSafe_sorted_dumpsEntries p₂ hp₂) hca
  exact perm_of_sorted_serialized p₁ p₂ hp₁ hp₂ hsorted

/-- Witness for the amended C7: method `"get"` versus `"GET"` and reordered
parameter entries derive the same key, and the theorem recovers exactly
that: equal upper-cased methods, equal URLs, and a permutation of the
parameter entries. -/
theorem c7_cache_key_sensitivity_amended_witness :
    pyUpper (pstr "get") = pyUpper (pstr "GET") ∧
    pstr "https://phab.example/api/" = pstr "https://phab.example/api/" ∧
    List.Perm
      [(pstr "a", PyVal.pystr (pstr "1")), (pstr "b", PyVal.pystr (pstr "2"))]
      [(pstr "b", PyVal.pystr (pstr "2")), (pstr "a", PyVal.pystr (pstr "1"))] :=
  c7_cache_key_sensitivity_amended (pstr "get") (pstr "GET")
    (pstr "https://phab.example/api/") (pstr "https://phab.example/api/")
    [(pstr "a", PyVal.pystr (pstr "1")), (pstr "b", PyVal.pystr (pstr "2"))]
    [(pstr "b", PyVal.pystr (pstr "2")), (pstr "a", PyVal.pystr (pstr "1"))]
    (by decide) (by decide) (by decide) (by decide)
    (by constructor
        · decide
        · intro e he
          rcases List.mem_cons.mp he with rfl | he
          · exact ⟨by decide, by decide⟩
          rcases List.mem_cons.mp he with rfl | he
          · exact ⟨by decide, by decide⟩
          exact absurd he (List.not_mem_nil e))
    (by constructor
        · decide
        · intro e he
          rcases List.mem_cons.mp he with rfl | he
          · exact ⟨by decide, by decide⟩
          rcases List.mem_cons.mp he with rfl | he
          · exact ⟨by decide, by decide⟩
          exact absurd he (List.not_mem_nil e))
    (by decide)

/-! ## C8: token length validation -/

/-- A Stateful (stdio) app with a valid configured token and no memoised
client. -/
def c8App : ConduitApp :=
  ⟨⟨some "bbbbbbbbbbbbbbbbbbbbbbbbbbbbbbbb", "https://phab.example/", none,
    false⟩, false, none⟩

/-- The client `get_client` builds from the configured token in the C8
scenario. -/
def c8Client : PClient :=
  ⟨"https://phab.example/", "bbbbbbbbbbbbbbbbbbbbbbbbbbbbbbbb", none, false, 0⟩

/-- Counterexample to C8 as stated: the empty string is a token of length
`0 ≠ 32`, yet neither rejection happens.  `PhabricatorConfig("")` with
`require_token=False` succeeds (the falsy token is replaced by the absent
environment token and the length check is skipped), and `get_client` given
an *empty* `x-phabricator-token` header in Stateful mode silently falls back
to the configured token instead of raising a validation error. -/
theorem c8_counterexample_empty_token :
    ("" : String).length ≠ 32 ∧
    mkPhabConfig (some "") false none (some "https://phab.example/") none "" =
      .ok ⟨none, "https://phab.example/", none, false⟩ ∧
    getClient c8App [("x-phabricator-token", "")] 0 =
      .ok (c8Client, ⟨c8App.config, false, some c8Client⟩) :=
  ⟨by decide, rfl, rfl⟩

/-- **C8 (amended).** A *nonempty* token of any length other than 32 fails
with a `ValueError` before any client is built, in both places: a truthy
constructor/environment token in `PhabricatorConfig.__init__` (given the URL
is present), and a truthy header token in `get_client` on a request with no
memoised client.  An empty token is falsy in Python and is treated as
*absent* instead: the config falls through to its missing-token handling and
`get_client` to its per-mode fallback (and a request served by an
already-memoised client skips header validation entirely, see C1). -/
theorem c8_token_validation_amended :
    (∀ (t u : String) (rt : Bool) (envTok envProxy : Option String)
      (edc : String), t ≠ "" → t.length ≠ 32 → u ≠ "" →
      mkPhabConfig (some t) rt envTok (some u) envProxy edc =
        .error "PHABRICATOR_TOKEN must be exactly 32 characters long") ∧
    (∀ (app : ConduitApp) (headers : List (String × String)) (fid : Nat)
      (t : String), app.client = none →
      headerGet headers "x-phabricator-token" = some t → t ≠ "" →
      t.length ≠ 32 →
      getClient app headers fid = .error
        "PHABRICATOR_TOKEN from HTTP header must be exactly 32 characters long") := by
  constructor
  · intro t u rt envTok envProxy edc ht hlen hu
    simp [mkPhabConfig, pyOr, truthy, ht, hu, hlen]
  · intro app headers fid t hc hh ht hlen
    rw [getClient, hc]
    simp [hh, truthy, ht, hlen]

/-- Witness for the amended C8: the 5-character token `"short"` is rejected
by both the config constructor and the header path. -/
theorem c8_token_validation_amended_witness :
    mkPhabConfig (some "short") true none (some "https://phab.example/")
      none "" = .error "PHABRICATOR_TOKEN must be exactly 32 characters long" ∧
    getClient ⟨⟨none, "https://phab.example/", none, false⟩, true, none⟩
      [("x-phabricator-token", "short")] 0 = .error
      "PHABRICATOR_TOKEN from HTTP header must be exactly 32 characters long" := by
  constructor
  · exact c8_token_validation_amended.1 "short" "https://phab.example/" true
      none none "" (by decide) (by decide) (by decide)
  · exact c8_token_validation_amended.2
      ⟨⟨none, "https://phab.example/", none, false⟩, true, none⟩
      [("x-phabricator-token", "short")] 0 "short" rfl rfl (by decide)
      (by decide)

/-! ## C2: TTL expiry -/

/-- URL of the C2 scenario. -/
def c2Url : PyStr := pstr "https://phab.example/api/user.whoami"

/-- One `GET` pass through `cached_request` in the C2 scenario. -/
def c2Call (cache : RequestCache) (f : Except PyExc PyVal) (now : Nat) :
    CachedStep :=
  cachedRequest defaultConfig cache (some (pstr "GET")) (some c2Url)
    .pynone .pynone .pynone (.pydict []) f now

/-- The cache key derived for the C2 scenario's call. -/
def c2Key : PyStr := generateKey (pstr "GET") c2Url .pynone .pynone .pynone (.pydict [])

/-- First call at time `0`: the wrapped call succeeds returning `None` (a
JSON `null` body), which is stored. -/
def c2Step₁ : CachedStep := c2Call ⟨300, []⟩ (.ok .pynone) 0

/-- Second, identical call at time `10`, well within the 300-second TTL. -/
def c2Step₂ : CachedStep := c2Call c2Step₁.cache (.ok (.pystr (pstr "second"))) 10

/-- Counterexample to C2 as stated: after the first call the cache holds
`(None, 0)` under the derived key, the second identical call happens at
`10 − 0 < ttl`, yet the wrapped call is invoked again and its new value is
returned — the stored value is not served.  (`RequestCache.get` returns
Python `None` both for a miss and for a stored `None`, so
`cached_request`'s `is not None` test treats the fresh entry as absent.) -/
theorem c2_counterexample_stored_none :
    c2Step₁.invoked = true ∧
    lookupEntry c2Step₁.cache.entries c2Key = some (.pynone, 0) ∧
    (10 : Nat) - 0 < defaultConfig.cacheTtl ∧
    c2Step₂.invoked = true ∧
    c2Step₂.result = .ok (.pystr (pstr "second")) :=
  ⟨rfl, rfl, by decide, rfl, rfl⟩

/-- **C2 (amended).** For a cacheable call (`GET`, caching enabled) on a
cache binding the derived key to `(v, ts)` (keys are never bound twice):
a lookup at `now` with `now − ts < ttl` *and a stored value other than
`None`* is served from the cache without invoking the wrapped call (only the
cache's `ttl` field is rewritten to the instance's `cache_ttl`); a stored
`None` is indistinguishable from a miss and is re-fetched.  Once
`ttl ≤ now − ts` the entry is treated as absent: it is removed by that very
lookup (visible as an absent key when the call then fails), the wrapped call
is invoked, and a successful result overwrites the entry with the new value
and the fresh timestamp `now`. -/
theorem c2_ttl_expiry_amended (cfg : ClientConfig) (cache : RequestCache)
    (m u key : PyStr) (p d j x : PyVal) (f : Except PyExc PyVal)
    (v : PyVal) (ts now : Nat)
    (hm : pyUpper m = pstr "GET") (hen : cfg.enableCache = true)
    (hk : key = generateKey (pyUpper m) u p d j x)
    (hl : lookupEntry cache.entries key = some (v, ts))
    (hnd : (cache.entries.map fun e => e.1).Nodup) :
    (now - ts < cfg.cacheTtl → v ≠ .pynone →
      cachedRequest cfg cache (some m) (some u) p d j x f now =
        ⟨.ok v, ⟨cfg.cacheTtl, cache.entries⟩, false⟩) ∧
    (cfg.cacheTtl ≤ now - ts →
      (cachedRequest cfg cache (some m) (some u) p d j x f now).invoked = true ∧
      (cachedRequest cfg cache (some m) (some u) p d j x f now).result = f ∧
      (∀ w, f = .ok w →
        lookupEntry (cachedRequest cfg cache (some m) (some u) p d j x f
          now).cache.entries key = some (w, now)) ∧
      (∀ e, f = .error e →
        lookupEntry (cachedRequest cfg cache (some m) (some u) p d j x f
          now).cache.entries key = none)) := by
  rw [cachedRequest_get_unfold cfg cache m u p d j x f now hm hen, ← hk]
  constructor
  · intro hfresh hv
    rw [requestCacheGet_fresh ⟨cfg.cacheTtl, cache.entries⟩ key now v ts hl
      hfresh]
    cases v with
    | pynone => exact absurd rfl hv
    | pybool b => rfl
    | pyint n => rfl
    | pystr s => rfl
    | pylist l => rfl
    | pydict l => rfl
  · intro hexp
    have hnotlt : ¬ now - ts <
        (⟨cfg.cacheTtl, cache.entries⟩ : RequestCache).ttl := by
      show ¬ now - ts < cfg.cacheTtl
      omega
    rw [requestCacheGet_expired ⟨cfg.cacheTtl, cache.entries⟩ key now v ts hl
      hnotlt]
    cases f with
    | error e =>
      refine ⟨rfl, rfl, ?_, ?_⟩
      · intro w hw
        exact absurd hw (by simp)
      · intro e' he
        exact lookupEntry_removeKey_self cache.entries key hnd
    | ok w =>
      refine ⟨rfl, rfl, ?_, ?_⟩
      · intro w' hw
        obtain rfl : w = w' := by
          simpa using hw
        exact lookupEntry_setEntry_self _ key w now
      · intro e' he
        exact absurd he (by simp)

/-- Witness for the amended C2: a fresh non-`None` entry (stored at `0`,
looked up at `10`, TTL `300`) is served without invoking; the same entry
looked up at `400` is expired, the wrapped call runs, and the entry is
overwritten with the new value and timestamp `400`. -/
theorem c2_ttl_expiry_amended_witness :
    cachedRequest defaultConfig ⟨300, [(c2Key, .pystr (pstr "cached"), 0)]⟩
      (some (pstr "GET")) (some c2Url) .pynone .pynone .pynone (.pydict [])
      (.ok (.pystr (pstr "second"))) 10 =
      ⟨.ok (.pystr (pstr "cached")), ⟨300, [(c2Key, .pystr (pstr "cached"), 0)]⟩,
        false⟩ ∧
    lookupEntry (cachedRequest defaultConfig
      ⟨300, [(c2Key, .pystr (pstr "cached"), 0)]⟩
      (some (pstr "GET")) (some c2Url) .pynone .pynone .pynone (.pydict [])
      (.ok (.pystr (pstr "second"))) 400).cache.entries c2Key =
      some (.pystr (pstr "second"), 400) := by
  constructor
  · exact (c2_ttl_expiry_amended defaultConfig
      ⟨300, [(c2Key, .pystr (pstr "cached"), 0)]⟩ (pstr "GET") c2Url c2Key
      .pynone .pynone .pynone (.pydict []) (.ok (.pystr (pstr "second")))
      (.pystr (pstr "cached")) 0 10 rfl rfl rfl rfl (by simp)).1
      (by decide) (by simp)
  · exact (c2_ttl_expiry_amended defaultConfig
      ⟨300, [(c2Key, .pystr (pstr "cached"), 0)]⟩ (pstr "GET") c2Url c2Key
      .pynone .pynone .pynone (.pydict []) (.ok (.pystr (pstr "second")))
      (.pystr (pstr "cached")) 0 400 rfl rfl rfl rfl (by simp)).2
      (by decide) |>.2.2.1 (.pystr (pstr "second")) rfl

/-! ## C10: no cache write on error -/

/-- URL of the C10 scenario. -/
def c10Url : PyStr := pstr "https://phab.example/api/project.search"

/-- The key derived for the C10 scenario's call. -/
def c10Key : PyStr :=
  generateKey (pstr "GET") c10Url .pynone .pynone .pynone (.pydict [])

/-- A cache holding an already-expired entry under that key (stored at time
`0`; the call happens at `400` with TTL `300`). -/
def c10Cache : RequestCache := ⟨300, [(c10Key, .pystr (pstr "stale"), 0)]⟩

/-- The C10 call: the wrapped call raises a non-transient exception. -/
def c10Step : CachedStep :=
  cachedRequest defaultConfig c10Cache (some (pstr "GET")) (some c10Url)
    .pynone .pynone .pynone (.pydict []) (.error (.otherExc (pstr "boom"))) 400

/-- Counterexample to C10 as stated: the wrapped call raises, and indeed no
entry is written — but the entry map is *not* unchanged: the lookup that
preceded the failing call lazily deleted the expired entry, so the map went
from one entry to none. -/
theorem c10_counterexample_expired_entry_removed :
    c10Step.invoked = true ∧
    c10Step.result = .error (.otherExc (pstr "boom")) ∧
    c10Step.cache.entries = [] ∧
    c10Cache.entries ≠ [] :=
  ⟨rfl, rfl, rfl, by simp [c10Cache]⟩

/-- **C10 (amended).** If the wrapped call is invoked inside
`cached_request` and raises, the exception propagates and no cache entry is
written: the entry map is unchanged except that an already-expired entry
under the derived key may have been removed by the lookup that preceded the
call.  (A result is stored only after the wrapped call returns
successfully.) -/
theorem c10_no_write_on_error_amended (cfg : ClientConfig)
    (cache : RequestCache) (method url : Option PyStr) (p d j x : PyVal)
    (e : PyExc) (now : Nat)
    (hinv : (cachedRequest cfg cache method url p d j x (.error e) now).invoked
      = true) :
    (cachedRequest cfg cache method url p d j x (.error e) now).result =
      .error e ∧
    ((cachedRequest cfg cache method url p d j x (.error e) now).cache.entries
        = cache.entries ∨
      (cachedRequest cfg cache method url p d j x (.error e) now).cache.entries
        = removeKey cache.entries
            (generateKey (pyUpper (method.getD [])) (url.getD []) p d j x)) := by
  by_cases hen : cfg.enableCache = false
  · rw [cachedRequest_disabled cfg cache method url p d j x _ now hen]
    exact ⟨rfl, Or.inl rfl⟩
  · have hen' : cfg.enableCache = true := by
      cases h : cfg.enableCache
      · exact absurd h hen
      · rfl
    match method, url with
    | none, url =>
      rw [cachedRequest_missing cfg cache none url p d j x _ now (Or.inl rfl)]
      exact ⟨rfl, Or.inl rfl⟩
    | some m, none =>
      rw [cachedRequest_missing cfg cache (some m) none p d j x _ now
        (Or.inr rfl)]
      exact ⟨rfl, Or.inl rfl⟩
    | some m, some u =>
      by_cases hm : pyUpper m = pstr "GET"
      · have heq := cachedRequest_get_unfold cfg cache m u p d j x (.error e)
          now hm hen'
        rw [heq] at hinv ⊢
        cases hl : lookupEntry cache.entries
            (generateKey (pyUpper m) u p d j x) with
        | none =>
          rw [requestCacheGet_miss ⟨cfg.cacheTtl, cache.entries⟩ _ now hl]
          exact ⟨rfl, Or.inl rfl⟩
        | some vt =>
          obtain ⟨v, ts⟩ := vt
          by_cases hfresh : now - ts <
              (⟨cfg.cacheTtl, cache.entries⟩ : RequestCache).ttl
          · rw [requestCacheGet_fresh ⟨cfg.cacheTtl, cache.entries⟩ _ now v ts
              hl hfresh] at hinv ⊢
            cases v with
            | pynone => exact ⟨rfl, Or.inl rfl⟩
            | pybool b => simp at hinv
            | pyint n => simp at hinv
            | pystr s => simp at hinv
            | pylist l => simp at hinv
            | pydict l => simp at hinv
          · rw [requestCacheGet_expired ⟨cfg.cacheTtl, cache.entries⟩ _ now v
              ts hl hfresh]
            exact ⟨rfl, Or.inr rfl⟩
      · rw [cachedRequest_non_get cfg cache m u p d j x _ now hm]
        exact ⟨rfl, Or.inl rfl⟩

/-- Witness for the amended C10: the C10 scenario call (expired entry,
failing wrapped call) propagates the exception and leaves the map equal to
the original with the expired entry removed. -/
theorem c10_no_write_on_error_amended_witness :
    c10Step.result = .error (.otherExc (pstr "boom")) ∧
    (c10Step.cache.entries = c10Cache.entries ∨
      c10Step.cache.entries = removeKey c10Cache.entries
        (generateKey (pyUpper (pstr "GET")) c10Url .pynone .pynone .pynone
          (.pydict []))) :=
  c10_no_write_on_error_amended defaultConfig c10Cache (some (pstr "GET"))
    (some c10Url) .pynone .pynone .pynone (.pydict [])
    (.otherExc (pstr "boom")) 400 rfl

/-! ## C4: per-instance retry configuration -/

/-- A client configured with `max_retries=5` (and cache enabled, TTL 300). -/
def c4Cfg : ClientConfig := ⟨5, 1, 2, true, 300⟩

/-- A `request` call on that client: `POST`, wrapped call failing with a
transient network error on every attempt. -/
def c4Run : RequestRun :=
  enhancedRequest c4Cfg ⟨300, []⟩ (some (pstr "POST"))
    (some (pstr "https://phab.example/api/maniphest.search"))
    .pynone .pynone .pynone (.pydict [])
    (fun _ => .error (.networkExc (pstr "down"))) (fun i => i)

/-- Counterexample to C4 as stated: the client is configured with
`max_retries = 5`, so the claim demands `6` attempts — but `request` is
decorated with the literal `@retry_request(max_retries=3, ...)`, and the
persistently failing call is invoked exactly `4` times. -/
theorem c4_counterexample_fixed_retry :
    c4Cfg.maxRetries = 5 ∧
    c4Run.calls = 4 ∧
    c4Run.calls ≠ c4Cfg.maxRetries + 1 :=
  ⟨rfl, rfl, by decide⟩

/-- Retry loop of `request` over a persistently transiently-failing wrapped
call with a non-`GET` method: every attempt bypasses the cache and invokes
the raw call, so a run with `rest` remaining attempts makes `rest + 1`
further invocations and ends with the last attempt's exception. -/
theorem requestGo_non_get_transient (cfg : ClientConfig) (m u : PyStr)
    (p d j x : PyVal) (raw : Nat → Except PyExc PyVal) (times : Nat → Nat)
    (es : Nat → PyExc) (hm : pyUpper m ≠ pstr "GET")
    (hraw : ∀ i, raw i = .error (es i)) (ht : ∀ i, isTransient (es i) = true) :
    ∀ rest attempt cache acc,
      requestGo cfg (some m) (some u) p d j x raw times attempt cache acc rest =
        ⟨.error (es (attempt + rest)), cache, acc + rest + 1⟩ := by
  intro rest
  induction rest with
  | zero =>
    intro attempt cache acc
    simp [requestGo, cachedRequest_non_get cfg cache m u p d j x _ _ hm,
      hraw attempt]
  | succ r ih =>
    intro attempt cache acc
    have h₁ : attempt + 1 + r = attempt + (r + 1) := by omega
    have h₂ : acc + 1 + r + 1 = acc + (r + 1) + 1 := by omega
    simp [requestGo, cachedRequest_non_get cfg cache m u p d j x _ _ hm,
      hraw attempt, ht attempt, ih (attempt + 1) cache (acc + 1), h₁, h₂]

/-- **C4 (amended).** `enable_cache` and `cache_ttl` are read from the
instance's config on every call and are honoured per instance; `max_retries`,
`retry_delay` and `retry_backoff` are stored per instance (and reported by
`get_stats`) but `request`'s retry behaviour uses the decorator's literal
values (`3`, `1.0`, `2.0`): a persistently transiently-failing call is
attempted exactly `3 + 1 = 4` times regardless of the instance's configured
`max_retries`. -/
theorem c4_request_retries_fixed_amended (cfg : ClientConfig)
    (cache : RequestCache) (m u : PyStr) (p d j x : PyVal)
    (raw : Nat → Except PyExc PyVal) (times : Nat → Nat) (es : Nat → PyExc)
    (hm : pyUpper m ≠ pstr "GET")
    (hraw : ∀ i, raw i = .error (es i)) (ht : ∀ i, isTransient (es i) = true) :
    enhancedRequest cfg cache (some m) (some u) p d j x raw times =
      ⟨.error (es 3), cache, 3 + 1⟩ :=
  requestGo_non_get_transient cfg m u p d j x raw times es hm hraw ht 3 0 cache 0

/-- Witness for the amended C4: a client configured with `max_retries = 7`
still makes exactly `4` raw attempts. -/
theorem c4_request_retries_fixed_amended_witness :
    enhancedRequest ⟨7, 1, 2, true, 300⟩ ⟨300, []⟩ (some (pstr "POST"))
      (some (pstr "https://phab.example/api/differential.query"))
      .pynone .pynone .pynone (.pydict [])
      (fun _ => .error (.timeoutExc (pstr "slow"))) (fun i => i) =
      ⟨.error (.timeoutExc (pstr "slow")), ⟨300, []⟩, 3 + 1⟩ :=
  c4_request_retries_fixed_amended ⟨7, 1, 2, true, 300⟩ ⟨300, []⟩
    (pstr "POST") (pstr "https://phab.example/api/differential.query")
    .pynone .pynone .pynone (.pydict [])
    (fun _ => .error (.timeoutExc (pstr "slow"))) (fun i => i)
    (fun _ => .timeoutExc (pstr "slow")) (by decide) (fun _ => rfl)
    (fun _ => rfl)

/-- Witness for C9: a payload with `error_code` `"ERR-CONDUIT"` raises with
both structured fields preserved; a payload with only `result` returns it;
a payload with neither returns the empty dict. -/
theorem c9_make_request_error_fields_witness :
    makeRequest (.jsonOk [(pstr "error_code", .pystr (pstr "ERR-CONDUIT")),
        (pstr "error_info", .pystr (pstr "bad token"))]) =
      .error ⟨.pystr (pstr "ERR-CONDUIT"), .pystr (pstr "bad token")⟩ ∧
    makeRequest (.jsonOk [(pstr "result", .pylist [.pyint 7])]) =
      .ok (.pylist [.pyint 7]) ∧
    makeRequest (.jsonOk []) = .ok (.pydict []) := by
  refine ⟨?_, ?_, ?_⟩
  · exact (c9_make_request_error_fields _).1 rfl
  · exact (c9_make_request_error_fields _).2 rfl
  · exact (c9_make_request_error_fields _).2 rfl
